import Mathlib

/-!
Shallow embedding of the Synthron CFD trader (strategies/risk_management.py,
strategies/position_management.py, performance/backtesting.py), with theorems
settling the spec claims.  Prices, sizes and balances are modelled as rationals;
Python exceptions (KeyError on a missing dict key, ValueError on a bad
direction) are modelled with an `Except PyError` result.
-/

namespace Synthron

/-- Python exceptions that the embedded functions can raise. -/
inductive PyError where
  | keyError : PyError
  | valueError : PyError
deriving Repr, DecidableEq

deriving instance DecidableEq for Except

/-- `tbl[k]`-style lookup in a Python dict modelled as an association list. -/
def dictGet (tbl : List (String × α)) (k : String) : Option α :=
  List.lookup k tbl

/-- The shared pattern
`if time_frame not in valid_timeframes: time_frame = fallback`
followed by `valid_timeframes[time_frame]`: a missing key after the fallback
substitution raises `KeyError`. -/
def dictResolve (tbl : List (String × α)) (fallback : String) (time_frame : String) :
    Except PyError α :=
  match dictGet tbl time_frame with
  | some v => Except.ok v
  | none =>
    match dictGet tbl fallback with
    | some v => Except.ok v
    | none => Except.error PyError.keyError

/-- `RiskManagement.__init__` state (risk_management.py, lines 8-22). -/
structure RiskManagement where
  account_balance : ℚ
  leverage : ℚ
  max_drawdown : ℚ
  risk_per_trade : ℚ
  default_lot_size : ℚ
deriving Repr, DecidableEq

/-- Python `round(x, 2)`: round to two decimal places.  Ties (which the claims
never exercise) are rounded with Mathlib `round`. -/
def round2 (x : ℚ) : ℚ := (round (x * 100) : ℤ) / 100

/-- `RiskManagement.calculate_position_size` (risk_management.py, lines 24-35):
`risk_amount = account_balance * risk_per_trade`;
`position_size = risk_amount / (stop_loss_pips * pip_value)`;
returns `round(position_size, 2)`. -/
def RiskManagement.calculate_position_size (rm : RiskManagement)
    (stop_loss_pips pip_value : ℚ) : ℚ :=
  let risk_amount := rm.account_balance * rm.risk_per_trade
  let position_size := risk_amount / (stop_loss_pips * pip_value)
  round2 position_size

/-- The `valid_timeframes` dict of `calculate_stop_loss`
(risk_management.py, lines 47-53). -/
def stop_loss_timeframes : List (String × ℚ) :=
  [("1m", (1/1000)), ("5m", (1/500)), ("1h", (1/200)), ("4h", (1/100)), ("1D", (1/50))]

/-- `RiskManagement.calculate_stop_loss` (risk_management.py, lines 37-68).
The `stop_loss_buffer` parameter is accepted but never read by the source. -/
def RiskManagement.calculate_stop_loss (_rm : RiskManagement)
    (entry_price : ℚ) (direction : String) (stop_loss_buffer : ℚ)
    (time_frame : String) : Except PyError ℚ :=
  match dictResolve stop_loss_timeframes ("1H") time_frame with
  | Except.error e => Except.error e
  | Except.ok buffer =>
    if direction == "long" then Except.ok (entry_price * (1 - buffer))
    else if direction == "short" then Except.ok (entry_price * (1 + buffer))
    else Except.error PyError.valueError

/-- The `valid_timeframes` dict of `calculate_take_profit`
(risk_management.py, lines 80-86). -/
def take_profit_timeframes : List (String × ℚ) :=
  [("1m", (1/500)), ("5m", (1/200)), ("1h", (1/100)), ("4h", (1/50)), ("1D", (1/20))]

/-- `RiskManagement.calculate_take_profit` (risk_management.py, lines 70-101). -/
def RiskManagement.calculate_take_profit (_rm : RiskManagement)
    (entry_price : ℚ) (direction : String) (take_profit_buffer : ℚ)
    (time_frame : String) : Except PyError ℚ :=
  match dictResolve take_profit_timeframes ("1H") time_frame with
  | Except.error e => Except.error e
  | Except.ok buffer =>
    if direction == "long" then Except.ok (entry_price * (1 + take_profit_buffer * buffer))
    else if direction == "short" then Except.ok (entry_price * (1 - take_profit_buffer * buffer))
    else Except.error PyError.valueError

/-- `PositionManagement.__init__` state (position_management.py, lines 8-19),
with the source's default parameter values. -/
structure PositionManagement where
  trailing_stop_buffer : ℚ := (1/100)
  scale_in_threshold : ℚ := (1/200)
  scale_out_threshold : ℚ := (1/100)
deriving Repr, DecidableEq

/-- The `valid_timeframes` dict shared by `scale_in` and `scale_out`
(position_management.py, lines 33-41 and 70-78): threshold in percent. -/
def scale_timeframes : List (String × ℚ) :=
  [("1m", (1/2)), ("5m", 1), ("15m", (3/2)), ("30m", 2), ("1h", 3), ("4h", 5), ("1D", 10)]

/-- `PositionManagement.scale_in` (position_management.py, lines 20-53). -/
def PositionManagement.scale_in (_pm : PositionManagement)
    (current_price entry_price current_position max_position scale_step : ℚ)
    (time_frame : String) : Except PyError ℚ :=
  match dictResolve scale_timeframes ("1H") time_frame with
  | Except.error e => Except.error e
  | Except.ok scale_threshold =>
    if current_price > entry_price * (1 + scale_threshold / 100) ∧
        current_position < max_position then
      let scale_amount := min (scale_step * max_position) (max_position - current_position)
      Except.ok (current_position + scale_amount)
    else
      Except.ok current_position

/-- `PositionManagement.scale_out` (position_management.py, lines 55-88). -/
def PositionManagement.scale_out (_pm : PositionManagement)
    (current_price entry_price current_position min_position scale_step : ℚ)
    (time_frame : String) : Except PyError ℚ :=
  match dictResolve scale_timeframes ("1H") time_frame with
  | Except.error e => Except.error e
  | Except.ok scale_threshold =>
    if current_price < entry_price * (1 - scale_threshold / 100) ∧
        current_position > min_position then
      let scale_amount := min (scale_step * current_position) (current_position - min_position)
      Except.ok (current_position - scale_amount)
    else
      Except.ok current_position

/-- The `valid_timeframes` dict of `apply_trailing_stop`
(position_management.py, lines 101-106). -/
def trailing_stop_timeframes : List (String × ℚ) :=
  [("1m", (1/1000)), ("5m", (1/500)), ("1h", (1/200)), ("1D", (1/100))]

/-- `PositionManagement.apply_trailing_stop` (position_management.py, lines 90-121). -/
def PositionManagement.apply_trailing_stop (pm : PositionManagement)
    (current_price trailing_stop_price : ℚ) (direction : String)
    (time_frame : String) : Except PyError ℚ :=
  match dictResolve trailing_stop_timeframes ("1H") time_frame with
  | Except.error e => Except.error e
  | Except.ok buffer =>
    if direction == "long" ∧ current_price > trailing_stop_price * (1 + buffer) then
      Except.ok (current_price * (1 - pm.trailing_stop_buffer))
    else if direction == "short" ∧ current_price < trailing_stop_price * (1 - buffer) then
      Except.ok (current_price * (1 + pm.trailing_stop_buffer))
    else
      Except.ok trailing_stop_price

/-- The `valid_timeframes` dict of `lock_profit`
(position_management.py, lines 134-139): threshold in percent. -/
def lock_profit_timeframes : List (String × ℚ) :=
  [("1m", (1/2)), ("5m", 1), ("1h", 2), ("1D", 5)]

/-- `PositionManagement.lock_profit` (position_management.py, lines 123-153):
returns the adjusted position size and the locked amount. -/
def PositionManagement.lock_profit (_pm : PositionManagement)
    (current_price entry_price position_size lock_threshold : ℚ)
    (time_frame : String) : Except PyError (ℚ × ℚ) :=
  match dictResolve lock_profit_timeframes ("1H") time_frame with
  | Except.error e => Except.error e
  | Except.ok profit_threshold =>
    let profit_percent :=
      if current_price > entry_price then (current_price - entry_price) / entry_price else 0
    if profit_percent ≥ profit_threshold / 100 then
      let lock_size := position_size * (1/4)
      Except.ok (position_size - lock_size, lock_size)
    else
      Except.ok (position_size, 0)

/-- The `valid_timeframes` dict of `partial_closing`
(position_management.py, lines 167-172). -/
def partial_closing_timeframes : List (String × List ℚ) :=
  [("1m", [(1/50)]), ("5m", [(1/50), (1/20)]), ("1h", [(1/20), (1/10)]), ("1D", [(1/10), (1/5)])]

/-- `PositionManagement.partial_closing` (position_management.py, lines 155-184).
The caller-supplied `levels` argument is unconditionally overwritten with the
timeframe table's list before the loop, exactly as in the source. -/
def PositionManagement.partial_closing (_pm : PositionManagement)
    (current_price entry_price position_size : ℚ) (levels : Option (List ℚ))
    (time_frame : String) : Except PyError ℚ :=
  match dictResolve partial_closing_timeframes ("1H") time_frame with
  | Except.error e => Except.error e
  | Except.ok tbl_levels =>
    let levels := tbl_levels
    Except.ok (levels.foldl
      (fun ps level =>
        if current_price ≥ entry_price * (1 + level) then ps - ps * (1/10) else ps)
      position_size)

/-! ## BacktestingEngine (performance/backtesting.py) -/

/-- The constructor parameters of `BacktestingEngine.__init__` that the
trading loop reads (commission, spread, slippage as fractions). -/
structure BTConfig where
  commission : ℚ
  spread : ℚ
  slippage : ℚ
deriving Repr, DecidableEq

/-- The dict appended to `self.trades` by `_execute_trade`
(backtesting.py, lines 70-77). -/
structure Trade where
  timestamp : ℕ
  signal : ℚ
  price : ℚ
  cost : ℚ
  balance : ℚ
  position : ℚ
deriving Repr, DecidableEq

/-- The dict appended to `self.balance_history` each bar of `run_backtest`
(backtesting.py, lines 88-92). -/
structure BalanceSnapshot where
  timestamp : ℕ
  balance : ℚ
  position : ℚ
deriving Repr, DecidableEq

/-- The mutable state of a `BacktestingEngine` during a run. -/
structure BTState where
  trades : List Trade
  balance_history : List BalanceSnapshot
  current_balance : ℚ
  current_position : ℚ
deriving Repr, DecidableEq

/-- The state set up by `BacktestingEngine.__init__` (backtesting.py, lines 23-26). -/
def initBTState (initial_balance : ℚ) : BTState :=
  { trades := [], balance_history := [],
    current_balance := initial_balance, current_position := 0 }

/-- A bar of historical data; the trading loop reads only its Close price. -/
structure Bar where
  close : ℚ
deriving Repr, DecidableEq

/-- `BacktestingEngine._execute_trade` (backtesting.py, lines 42-77):
a buy executes only when the balance covers the total cost, a sell only when
the position covers the signal; the trades list is appended to in every case. -/
def execute_trade (cfg : BTConfig) (s : BTState) (signal price : ℚ)
    (timestamp : ℕ) : BTState :=
  let trade_price := price * (1 + cfg.spread + cfg.slippage)
  let trade_value := trade_price * |signal|
  let commission_cost := trade_value * cfg.commission
  let total_cost := trade_value + commission_cost
  let s1 :=
    if 0 < signal then
      if total_cost ≤ s.current_balance then
        { s with current_balance := s.current_balance - total_cost,
                 current_position := s.current_position + signal }
      else s
    else if signal < 0 then
      if |signal| ≤ s.current_position then
        { s with current_balance := s.current_balance + (trade_value - commission_cost),
                 current_position := s.current_position + signal }
      else s
    else s
  { s1 with trades := s1.trades ++
      [{ timestamp := timestamp, signal := signal, price := trade_price,
         cost := total_cost, balance := s1.current_balance,
         position := s1.current_position }] }

/-- One iteration of the `run_backtest` loop (backtesting.py, lines 84-92):
`signal = strategy(row)`; a truthy (non-zero) signal is executed, then a
balance snapshot is appended whether or not a trade occurred. -/
def run_bar (cfg : BTConfig) (strategy : Bar → ℚ) (s : BTState) (idx : ℕ)
    (bar : Bar) : BTState :=
  let signal := strategy bar
  let s1 := if signal ≠ 0 then execute_trade cfg s signal bar.close idx else s
  { s1 with balance_history := s1.balance_history ++
      [{ timestamp := idx, balance := s1.current_balance,
         position := s1.current_position }] }

/-- The `run_backtest` loop from a given state and bar index. -/
def run_from (cfg : BTConfig) (strategy : Bar → ℚ) :
    BTState → ℕ → List Bar → BTState
  | s, _, [] => s
  | s, i, bar :: rest => run_from cfg strategy (run_bar cfg strategy s i bar) (i + 1) rest

/-- `BacktestingEngine.run_backtest` (backtesting.py, lines 79-95) on a list of
bars, starting from the freshly initialized engine state. -/
def run_backtest (cfg : BTConfig) (strategy : Bar → ℚ) (initial_balance : ℚ)
    (data : List Bar) : BTState :=
  run_from cfg strategy (initBTState initial_balance) 0 data

/-! ## Call-sequence models for the stateful position-management claims -/

/-- The successive trailing-stop prices produced by iterating
`apply_trailing_stop` over a list of `(current_price, time_frame)`
observations, starting from a given stop; a raised exception ends the run. -/
def trailStops (pm : PositionManagement) (direction : String) :
    ℚ → List (ℚ × String) → List ℚ
  | stop, [] => [stop]
  | stop, (price, tf) :: rest =>
    match pm.apply_trailing_stop price stop direction tf with
    | Except.ok s1 => stop :: trailStops pm direction s1 rest
    | Except.error _ => [stop]

/-- One call in a sequence of position-scaling operations: either a
`scale_in` or a `scale_out`, with its price observation, scale step and
timeframe. -/
inductive ScaleOp where
  | scin (current_price entry_price scale_step : ℚ) (time_frame : String)
  | scout (current_price entry_price scale_step : ℚ) (time_frame : String)
deriving Repr, DecidableEq

/-- Iterate a sequence of `scale_in`/`scale_out` calls on a position size,
with fixed bounds `min_position` (fed to every `scale_out`) and
`max_position` (fed to every `scale_in`). -/
def runScale (pm : PositionManagement) (min_position max_position : ℚ) :
    ℚ → List ScaleOp → Except PyError ℚ
  | size, [] => Except.ok size
  | size, ScaleOp.scin p e s tf :: rest =>
    match pm.scale_in p e size max_position s tf with
    | Except.ok size1 => runScale pm min_position max_position size1 rest
    | Except.error err => Except.error err
  | size, ScaleOp.scout p e s tf :: rest =>
    match pm.scale_out p e size min_position s tf with
    | Except.ok size1 => runScale pm min_position max_position size1 rest
    | Except.error err => Except.error err

/-! ## Example instances used in concrete evaluations -/

/-- A `RiskManagement` instance with the balance and risk of the spec's
worked scenario: balance 10000, risk per trade 1%. -/
def rm_example : RiskManagement :=
  { account_balance := 10000, leverage := 30, max_drawdown := 20,
    risk_per_trade := 1/100, default_lot_size := 1 }

/-- A `PositionManagement` instance with the source's default parameters
(trailing_stop_buffer = (1/100)). -/
def pm_default : PositionManagement := {}

/-! ## Claim theorems -/

/-- Claim C1 (code_bug evidence): the fallback path is broken.  The fallback
key "1H" is not a key of any timeframe table (the tables use lowercase "1h"),
so calling a timeframe-parameterized operation with an unsupported timeframe
such as "2h" raises `KeyError` instead of substituting fallback parameters
and returning a valid result. -/
theorem C1_fallback_raises_keyerror :
    dictGet stop_loss_timeframes ("1H") = none ∧
    dictGet take_profit_timeframes ("1H") = none ∧
    dictGet scale_timeframes ("1H") = none ∧
    dictGet trailing_stop_timeframes ("1H") = none ∧
    dictGet lock_profit_timeframes ("1H") = none ∧
    (dictGet partial_closing_timeframes ("1H")).isNone = true ∧
    rm_example.calculate_stop_loss 100 ("long") (1/100) ("2h")
      = Except.error PyError.keyError ∧
    rm_example.calculate_take_profit 100 ("long") (1/100) ("2h")
      = Except.error PyError.keyError ∧
    pm_default.apply_trailing_stop 101 100 ("long") ("2h")
      = Except.error PyError.keyError ∧
    pm_default.scale_in 101 100 1 2 (1/10) ("2h")
      = Except.error PyError.keyError ∧
    pm_default.scale_out 99 100 1 0 (1/10) ("2h")
      = Except.error PyError.keyError ∧
    pm_default.lock_profit 110 100 1 (1/50) ("2h")
      = Except.error PyError.keyError ∧
    pm_default.partial_closing 110 100 1 none ("2h")
      = Except.error PyError.keyError := by
  decide

/-- Claim C6: `calculate_position_size` returns
`(account_balance * risk_per_trade) / (stop_loss_pips * pip_value)` rounded to
two decimal places, and the spec scenario (balance 10000, risk 1%, 20 pips,
pip value 10) yields (1/2) lots. -/
theorem C6_position_size_formula :
    (∀ (rm : RiskManagement) (stop_loss_pips pip_value : ℚ),
      rm.calculate_position_size stop_loss_pips pip_value =
        round2 (rm.account_balance * rm.risk_per_trade / (stop_loss_pips * pip_value))) ∧
    rm_example.calculate_position_size 20 10 = 1/2 := by
  refine ⟨fun rm p v => rfl, ?_⟩
  rw [RiskManagement.calculate_position_size, round2, round_eq]
  norm_num [rm_example]

/-- Claim C7: with a supported timeframe whose table buffer is `b`,
`calculate_stop_loss` returns `entry * (1 - b)` for "long" and
`entry * (1 + b)` for "short", and any other direction fails with an error
(the source's `ValueError`). -/
theorem C7_stop_loss_directions (rm : RiskManagement) (entry buf : ℚ)
    (tf : String) (b : ℚ) (hb : dictGet stop_loss_timeframes tf = some b) :
    rm.calculate_stop_loss entry ("long") buf tf = Except.ok (entry * (1 - b)) ∧
    rm.calculate_stop_loss entry ("short") buf tf = Except.ok (entry * (1 + b)) ∧
    ∀ dir : String, dir ≠ "long" → dir ≠ "short" →
      rm.calculate_stop_loss entry dir buf tf = Except.error PyError.valueError := by
  unfold RiskManagement.calculate_stop_loss dictResolve
  rw [hb]
  refine ⟨rfl, rfl, fun dir h1 h2 => ?_⟩
  simp only [beq_iff_eq, h1, h2, if_false]

/-- Witness for C7: the spec scenario, entry 100, direction "long",
timeframe "1h" (buffer (1/200)), yields 99.5. -/
theorem C7_stop_loss_directions_witness :
    rm_example.calculate_stop_loss 100 ("long") (1/100) ("1h")
      = Except.ok (199/2) := by
  have h := (C7_stop_loss_directions rm_example 100 (1/100) ("1h") (1/200)
    (by rfl)).1
  rw [h]; norm_num

/-- Claim C9: `partial_closing` ignores its caller-supplied `levels` argument:
the result is the same for any two values of `levels`, because the source
unconditionally overwrites the argument with the timeframe table's list. -/
theorem C9_partial_closing_levels_independent (pm : PositionManagement)
    (current_price entry_price position_size : ℚ)
    (levels1 levels2 : Option (List ℚ)) (tf : String) :
    pm.partial_closing current_price entry_price position_size levels1 tf =
    pm.partial_closing current_price entry_price position_size levels2 tf := rfl

/-- A successful dict lookup returns one of the table's values. -/
theorem dictGet_mem {α : Type} {tbl : List (String × α)} {k : String} {v : α}
    (h : dictGet tbl k = some v) : v ∈ tbl.map Prod.snd := by
  induction tbl with
  | nil => simp [dictGet, List.lookup] at h
  | cons hd tl ih =>
    rcases hd with ⟨k1, v1⟩
    rw [dictGet, List.lookup] at h
    by_cases hk : (k == k1)
    · rw [hk] at h
      simp at h
      simp [h]
    · rw [Bool.not_eq_true] at hk
      rw [hk] at h
      simpa using Or.inr (ih h)

/-- Every buffer in the trailing-stop timeframe table is positive. -/
theorem trailing_buffer_pos {tf : String} {b : ℚ}
    (h : dictGet trailing_stop_timeframes tf = some b) : 0 < b := by
  have hmem := dictGet_mem h
  simp [trailing_stop_timeframes] at hmem
  rcases hmem with rfl | rfl | rfl | rfl <;> norm_num

/-- A trailing-stop run always records its starting stop first. -/
theorem trailStops_cons (pm : PositionManagement) (dir : String) (s : ℚ)
    (obs : List (ℚ × String)) : ∃ t, trailStops pm dir s obs = s :: t := by
  match obs with
  | [] => exact ⟨[], rfl⟩
  | (price, tf) :: rest =>
    rw [trailStops]
    match happ : pm.apply_trailing_stop price s dir tf with
    | Except.ok s1 => exact ⟨trailStops pm dir s1 rest, rfl⟩
    | Except.error e => exact ⟨[], rfl⟩

/-- Single long-position step: with a supported timeframe whose buffer `b`
satisfies `(1 + b) * (1 - trailing_stop_buffer) ≥ 1`, one `apply_trailing_stop`
call never lowers a non-negative stop. -/
theorem trailing_long_step (pm : PositionManagement) (price stop b : ℚ)
    (tf : String) (hb : dictGet trailing_stop_timeframes tf = some b)
    (hcond : 1 ≤ (1 + b) * (1 - pm.trailing_stop_buffer))
    (hstop : 0 ≤ stop) :
    ∃ s1, pm.apply_trailing_stop price stop ("long") tf = Except.ok s1 ∧
      stop ≤ s1 ∧ 0 ≤ s1 := by
  have hbpos : 0 < b := trailing_buffer_pos hb
  have h1tsb : 0 ≤ 1 - pm.trailing_stop_buffer := by nlinarith
  rw [PositionManagement.apply_trailing_stop, dictResolve, hb]
  by_cases hp : price > stop * (1 + b)
  · refine ⟨price * (1 - pm.trailing_stop_buffer), by simp [hp], ?_, ?_⟩
    · nlinarith
    · nlinarith
  · exact ⟨stop, by simp [hp], le_refl stop, hstop⟩

/-- Single short-position step: with a supported timeframe whose buffer `b`
satisfies `(1 - b) * (1 + trailing_stop_buffer) ≤ 1`, a non-negative
trailing-stop buffer and a non-negative price, one `apply_trailing_stop` call
never raises a non-negative stop. -/
theorem trailing_short_step (pm : PositionManagement) (price stop b : ℚ)
    (tf : String) (hb : dictGet trailing_stop_timeframes tf = some b)
    (htsb : 0 ≤ pm.trailing_stop_buffer)
    (hcond : (1 - b) * (1 + pm.trailing_stop_buffer) ≤ 1)
    (hstop : 0 ≤ stop) (hprice : 0 ≤ price) :
    ∃ s1, pm.apply_trailing_stop price stop ("short") tf = Except.ok s1 ∧
      s1 ≤ stop ∧ 0 ≤ s1 := by
  rw [PositionManagement.apply_trailing_stop, dictResolve, hb]
  by_cases hp : price < stop * (1 - b)
  · refine ⟨price * (1 + pm.trailing_stop_buffer), by simp [hp], ?_, ?_⟩
    · nlinarith
    · nlinarith
  · exact ⟨stop, by simp [hp], le_refl stop, hstop⟩

/-- Long-direction run: the recorded stop sequence is non-decreasing. -/
theorem trailStops_long_chain (pm : PositionManagement) :
    ∀ (obs : List (ℚ × String)) (stop0 : ℚ), 0 ≤ stop0 →
    (∀ p ∈ obs, ∃ b, dictGet trailing_stop_timeframes p.2 = some b ∧
      1 ≤ (1 + b) * (1 - pm.trailing_stop_buffer)) →
    List.Chain' (fun a c => a ≤ c) (trailStops pm ("long") stop0 obs)
  | [], stop0, h0, hobs => by simp [trailStops]
  | (price, tf) :: rest, stop0, h0, hobs => by
    obtain ⟨b, hb, hcond⟩ := hobs (price, tf) (by simp)
    obtain ⟨s1, hs1, hle, hpos⟩ := trailing_long_step pm price stop0 b tf hb hcond h0
    rw [trailStops, hs1]
    show List.Chain' (fun a c => a ≤ c) (stop0 :: trailStops pm ("long") s1 rest)
    obtain ⟨t, ht⟩ := trailStops_cons pm ("long") s1 rest
    have hchain := trailStops_long_chain pm rest s1 hpos
      (fun p hp => hobs p (List.mem_cons_of_mem _ hp))
    rw [ht] at hchain ⊢
    exact List.Chain'.cons hle hchain

/-- Short-direction run: the recorded stop sequence is non-increasing. -/
theorem trailStops_short_chain (pm : PositionManagement)
    (htsb : 0 ≤ pm.trailing_stop_buffer) :
    ∀ (obs : List (ℚ × String)) (stop0 : ℚ), 0 ≤ stop0 →
    (∀ p ∈ obs, 0 ≤ p.1 ∧ ∃ b, dictGet trailing_stop_timeframes p.2 = some b ∧
      (1 - b) * (1 + pm.trailing_stop_buffer) ≤ 1) →
    List.Chain' (fun a c => c ≤ a) (trailStops pm ("short") stop0 obs)
  | [], stop0, h0, hobs => by simp [trailStops]
  | (price, tf) :: rest, stop0, h0, hobs => by
    obtain ⟨hpr, b, hb, hcond⟩ := hobs (price, tf) (by simp)
    obtain ⟨s1, hs1, hle, hpos⟩ :=
      trailing_short_step pm price stop0 b tf hb htsb hcond h0 hpr
    rw [trailStops, hs1]
    show List.Chain' (fun a c => c ≤ a) (stop0 :: trailStops pm ("short") s1 rest)
    obtain ⟨t, ht⟩ := trailStops_cons pm ("short") s1 rest
    have hchain := trailStops_short_chain pm htsb rest s1 hpos
      (fun p hp => hobs p (List.mem_cons_of_mem _ hp))
    rw [ht] at hchain ⊢
    exact List.Chain'.cons hle hchain

/-- Claim C3 (counterexample): with the source's default
`trailing_stop_buffer = 0.01` and the supported timeframe "1m"
(buffer 0.001), a long position's trailing stop at 100 is moved DOWN to
99.198 by a price observation of 100.2, so the stop sequence
[100, 99.198] is not non-decreasing. -/
theorem C3_counterexample :
    trailStops pm_default ("long") 100 [((501:ℚ)/5, "1m")]
      = [100, 49599/500] ∧
    ¬ List.Chain' (fun a c => a ≤ c) [(100:ℚ), 49599/500] := by
  have happ : pm_default.apply_trailing_stop ((501:ℚ)/5) 100 ("long") ("1m")
      = Except.ok (49599/500) := by
    rw [PositionManagement.apply_trailing_stop,
      show dictResolve trailing_stop_timeframes ("1H") ("1m")
        = Except.ok (1/1000) from rfl]
    norm_num [pm_default]
  constructor
  · rw [trailStops, happ]
    show (100:ℚ) :: trailStops pm_default ("long") (49599/500) [] = [100, 49599/500]
    rw [trailStops]
  · simp only [List.chain'_cons, List.chain'_singleton, and_true]
    norm_num

/-- Claim C3 as amended: the trailing stop never moves against the position
PROVIDED the trailing-stop buffer is compatible with each call's timeframe
buffer `b` — `(1 + b) * (1 - trailing_stop_buffer) ≥ 1` for long and
`(1 - b) * (1 + trailing_stop_buffer) ≤ 1` for short — and the initial stop,
the buffer and the observed prices are non-negative.  (The source's default
`trailing_stop_buffer = 0.01` violates the long condition for every supported
timeframe, as `C3_counterexample` shows.) -/
theorem C3_trailing_stop_monotone (pm : PositionManagement)
    (stop0 : ℚ) (obs : List (ℚ × String))
    (h0 : 0 ≤ stop0) (htsb : 0 ≤ pm.trailing_stop_buffer)
    (hobs : ∀ p ∈ obs, 0 ≤ p.1 ∧
      ∃ b, dictGet trailing_stop_timeframes p.2 = some b ∧
        1 ≤ (1 + b) * (1 - pm.trailing_stop_buffer) ∧
        (1 - b) * (1 + pm.trailing_stop_buffer) ≤ 1) :
    List.Chain' (fun a c => a ≤ c) (trailStops pm ("long") stop0 obs) ∧
    List.Chain' (fun a c => c ≤ a) (trailStops pm ("short") stop0 obs) := by
  constructor
  · exact trailStops_long_chain pm obs stop0 h0
      (fun p hp => ⟨(hobs p hp).2.choose, (hobs p hp).2.choose_spec.1,
        (hobs p hp).2.choose_spec.2.1⟩)
  · exact trailStops_short_chain pm htsb obs stop0 h0
      (fun p hp => ⟨(hobs p hp).1, (hobs p hp).2.choose,
        (hobs p hp).2.choose_spec.1, (hobs p hp).2.choose_spec.2.2⟩)

/-- Witness for the amended C3: with trailing_stop_buffer = 0, initial stop
100 and one observation (100.2, "1m"), both chains hold. -/
theorem C3_trailing_stop_monotone_witness :
    List.Chain' (fun a c => a ≤ c)
      (trailStops ⟨0, 1/200, 1/100⟩ ("long") 100 [((501:ℚ)/5, "1m")]) ∧
    List.Chain' (fun a c => c ≤ a)
      (trailStops ⟨0, 1/200, 1/100⟩ ("short") 100 [((501:ℚ)/5, "1m")]) := by
  refine C3_trailing_stop_monotone ⟨0, 1/200, 1/100⟩ 100 [((501:ℚ)/5, "1m")]
    (by norm_num) (by norm_num) ?_
  intro p hp
  simp only [List.mem_singleton] at hp
  subst hp
  refine ⟨by norm_num, 1/1000, by rfl, by norm_num, by norm_num⟩

/-- Single `scale_in` step: with a supported timeframe, a non-negative scale
step and a non-negative `max_position` bound, the size never decreases and
never exceeds `max_position`. -/
theorem scale_in_step (pm : PositionManagement) (p e size maxP s θ : ℚ)
    (tf : String) (hθ : dictGet scale_timeframes tf = some θ)
    (hs : 0 ≤ s) (hmax : 0 ≤ maxP) :
    ∃ size1, pm.scale_in p e size maxP s tf = Except.ok size1 ∧
      size ≤ size1 ∧ (size ≤ maxP → size1 ≤ maxP) := by
  rw [PositionManagement.scale_in, dictResolve, hθ]
  by_cases hcond : p > e * (1 + θ / 100) ∧ size < maxP
  · refine ⟨size + min (s * maxP) (maxP - size), by simp [hcond], ?_, ?_⟩
    · have hnn : 0 ≤ min (s * maxP) (maxP - size) :=
        le_min (mul_nonneg hs hmax) (by linarith [hcond.2])
      linarith
    · intro _
      have hub := min_le_right (s * maxP) (maxP - size)
      linarith
  · exact ⟨size, by simp [hcond], le_refl size, fun h => h⟩

/-- Single `scale_out` step: with a supported timeframe, a non-negative scale
step and a non-negative `min_position` bound, the size never increases and
never drops below `min_position`. -/
theorem scale_out_step (pm : PositionManagement) (p e size minP s θ : ℚ)
    (tf : String) (hθ : dictGet scale_timeframes tf = some θ)
    (hs : 0 ≤ s) (hmin : 0 ≤ minP) (hlb : minP ≤ size) :
    ∃ size1, pm.scale_out p e size minP s tf = Except.ok size1 ∧
      minP ≤ size1 ∧ size1 ≤ size := by
  rw [PositionManagement.scale_out, dictResolve, hθ]
  by_cases hcond : p < e * (1 - θ / 100) ∧ size > minP
  · refine ⟨size - min (s * size) (size - minP), by simp [hcond], ?_, ?_⟩
    · have hub := min_le_right (s * size) (size - minP)
      linarith
    · have hnn : 0 ≤ min (s * size) (size - minP) :=
        le_min (mul_nonneg hs (by linarith [hcond.2])) (by linarith [hcond.2])
      linarith
  · exact ⟨size, by simp [hcond], hlb, le_refl size⟩

/-- Claim C5 (counterexample): the invariant fails as stated when
`min_position` is negative.  Starting size -5 with bounds [-10, 1],
one `scale_out` call with the non-negative scale step 3 and supported
timeframe "1h" (price 90 below 97% of entry 100) returns size 10 > 1. -/
theorem C5_counterexample :
    runScale pm_default (-10) 1 (-5) [ScaleOp.scout 90 100 3 ("1h")]
      = Except.ok 10 ∧
    ¬ ((10:ℚ) ≤ 1) := by
  have hso : pm_default.scale_out 90 100 (-5) (-10) 3 ("1h") = Except.ok 10 := by
    rw [PositionManagement.scale_out,
      show dictResolve scale_timeframes ("1H") ("1h") = Except.ok 3 from rfl]
    norm_num [min_def]
  constructor
  · rw [runScale, hso]
    show runScale pm_default (-10) 1 10 [] = Except.ok 10
    rw [runScale]
  · norm_num

/-- Claim C5 as amended: PROVIDED `0 ≤ min_position`, every sequence of
`scale_in`/`scale_out` calls with supported timeframes and non-negative scale
steps keeps the position size within [min_position, max_position].
(With a negative `min_position` the invariant fails, as `C5_counterexample`
shows.) -/
theorem C5_scale_bounds (pm : PositionManagement) (minP maxP : ℚ)
    (hmin : 0 ≤ minP) :
    ∀ (ops : List ScaleOp) (size : ℚ), minP ≤ size → size ≤ maxP →
    (∀ p e s tf, ScaleOp.scin p e s tf ∈ ops →
      0 ≤ s ∧ ∃ θ, dictGet scale_timeframes tf = some θ) →
    (∀ p e s tf, ScaleOp.scout p e s tf ∈ ops →
      0 ≤ s ∧ ∃ θ, dictGet scale_timeframes tf = some θ) →
    ∃ size1, runScale pm minP maxP size ops = Except.ok size1 ∧
      minP ≤ size1 ∧ size1 ≤ maxP
  | [], size, hlb, hub, _, _ => ⟨size, by rw [runScale], hlb, hub⟩
  | ScaleOp.scin p e s tf :: rest, size, hlb, hub, hin, hout => by
    obtain ⟨hs, θ, hθ⟩ := hin p e s tf (List.mem_cons_self _ _)
    have hmax : 0 ≤ maxP := le_trans hmin (le_trans hlb hub)
    obtain ⟨size1, hstep, hge, hle⟩ := scale_in_step pm p e size maxP s θ tf hθ hs hmax
    rw [runScale, hstep]
    show ∃ size2, runScale pm minP maxP size1 rest = Except.ok size2 ∧
      minP ≤ size2 ∧ size2 ≤ maxP
    exact C5_scale_bounds pm minP maxP hmin rest size1 (le_trans hlb hge) (hle hub)
      (fun p1 e1 s1 tf1 h1 => hin p1 e1 s1 tf1 (List.mem_cons_of_mem _ h1))
      (fun p1 e1 s1 tf1 h1 => hout p1 e1 s1 tf1 (List.mem_cons_of_mem _ h1))
  | ScaleOp.scout p e s tf :: rest, size, hlb, hub, hin, hout => by
    obtain ⟨hs, θ, hθ⟩ := hout p e s tf (List.mem_cons_self _ _)
    obtain ⟨size1, hstep, hge, hle⟩ := scale_out_step pm p e size minP s θ tf hθ hs hmin hlb
    rw [runScale, hstep]
    show ∃ size2, runScale pm minP maxP size1 rest = Except.ok size2 ∧
      minP ≤ size2 ∧ size2 ≤ maxP
    exact C5_scale_bounds pm minP maxP hmin rest size1 hge (le_trans hle hub)
      (fun p1 e1 s1 tf1 h1 => hin p1 e1 s1 tf1 (List.mem_cons_of_mem _ h1))
      (fun p1 e1 s1 tf1 h1 => hout p1 e1 s1 tf1 (List.mem_cons_of_mem _ h1))

/-- Witness for the amended C5: starting size 1 within bounds [0, 10], one
triggered scale-in (price 104 above 103% of entry 100) followed by one
triggered scale-out (price 96 below 97% of entry 100), both on "1h" with
scale step 0.1, stays within bounds. -/
theorem C5_scale_bounds_witness :
    ∃ size1, runScale pm_default 0 10 1
      [ScaleOp.scin 104 100 (1/10) ("1h"), ScaleOp.scout 96 100 (1/10) ("1h")]
      = Except.ok size1 ∧ (0:ℚ) ≤ size1 ∧ size1 ≤ 10 := by
  refine C5_scale_bounds pm_default 0 10 (by norm_num) _ 1 (by norm_num) (by norm_num)
    ?_ ?_
  · intro p e s tf h
    simp at h
    obtain ⟨hp, he, hs, htf⟩ := h
    subst hp; subst he; subst hs; subst htf
    exact ⟨by norm_num, 3, by rfl⟩
  · intro p e s tf h
    simp at h
    obtain ⟨hp, he, hs, htf⟩ := h
    subst hp; subst he; subst hs; subst htf
    exact ⟨by norm_num, 3, by rfl⟩

/-- `_execute_trade` always appends exactly one entry to the trades list,
whether or not the trade executes. -/
theorem execute_trade_trades_len (cfg : BTConfig) (s : BTState)
    (signal price : ℚ) (t : ℕ) :
    (execute_trade cfg s signal price t).trades.length = s.trades.length + 1 := by
  rw [execute_trade]
  split_ifs <;> simp

/-- `_execute_trade` does not touch the balance history. -/
theorem execute_trade_history (cfg : BTConfig) (s : BTState)
    (signal price : ℚ) (t : ℕ) :
    (execute_trade cfg s signal price t).balance_history = s.balance_history := by
  rw [execute_trade]
  split_ifs <;> simp

/-- One bar appends exactly one balance snapshot, and one trades entry
exactly when the bar's signal is non-zero. -/
theorem run_bar_lens (cfg : BTConfig) (strat : Bar → ℚ) (s : BTState) (i : ℕ)
    (bar : Bar) :
    (run_bar cfg strat s i bar).balance_history.length
        = s.balance_history.length + 1 ∧
    (run_bar cfg strat s i bar).trades.length
        = s.trades.length + (if strat bar ≠ 0 then 1 else 0) := by
  rw [run_bar]
  by_cases hsig : strat bar = 0
  · simp [hsig]
  · simp [hsig, execute_trade_history, execute_trade_trades_len]

/-- Loop invariant for the ledger shapes. -/
theorem run_from_lens (cfg : BTConfig) (strat : Bar → ℚ) :
    ∀ (data : List Bar) (s : BTState) (i : ℕ),
    (run_from cfg strat s i data).balance_history.length
        = s.balance_history.length + data.length ∧
    (run_from cfg strat s i data).trades.length
        = s.trades.length + data.countP (fun b => strat b ≠ 0)
  | [], s, i => by simp [run_from]
  | bar :: rest, s, i => by
    obtain ⟨hh, ht⟩ := run_from_lens cfg strat rest (run_bar cfg strat s i bar) (i + 1)
    obtain ⟨hh1, ht1⟩ := run_bar_lens cfg strat s i bar
    rw [run_from, hh, ht, hh1, ht1, List.countP_cons]
    refine ⟨by simp [List.length_cons]; omega, ?_⟩
    by_cases hsig : strat bar = 0 <;> simp [hsig] <;> omega

/-- A bar appends one snapshot recording the post-trade balance and position. -/
theorem run_bar_history (cfg : BTConfig) (strat : Bar → ℚ) (s : BTState) (i : ℕ)
    (bar : Bar) :
    (run_bar cfg strat s i bar).balance_history
      = s.balance_history ++ [⟨i, (run_bar cfg strat s i bar).current_balance,
          (run_bar cfg strat s i bar).current_position⟩] := by
  rw [run_bar]
  by_cases hsig : strat bar = 0 <;> simp [hsig, execute_trade_history]

/-- Claim C2 (counterexample): a skipped signal still appends a ledger entry.
With zero balance and zero position, a one-bar run whose strategy emits the
sell signal -1 executes nothing, yet the trade ledger ends with one entry
(the claim predicts zero); the second conjunct shows the signal was indeed a
skipped sell (|signal| exceeds the position). -/
theorem C2_counterexample :
    (run_backtest ⟨1/2000, 1/5000, 1/10000⟩ (fun _ => -1) 0
        [⟨1⟩]).trades.length = 1 ∧
    (initBTState 0).current_position < |(-1 : ℚ)| := by
  constructor
  · have ht := (run_from_lens ⟨1/2000, 1/5000, 1/10000⟩ (fun _ => -1) [⟨1⟩]
      (initBTState 0) 0).2
    rw [run_backtest, ht]
    norm_num [initBTState]
  · norm_num [initBTState]

/-- Claim C2, corrected: over `n` bars the balance history gets exactly one
snapshot per bar, and the trade ledger gets exactly one entry per NON-ZERO
signal — including skipped ones.  A skipped signal (sell exceeding the
position, or buy exceeding the balance) leaves balance and position unchanged
but still appends a ledger entry recording the unchanged state. -/
theorem C2_ledger_shape (cfg : BTConfig) (strategy : Bar → ℚ) (init : ℚ)
    (data : List Bar) (s : BTState) (sellSig buySig sellPrice buyPrice : ℚ)
    (t1 t2 : ℕ)
    (hsell : sellSig < 0) (hsellskip : s.current_position < |sellSig|)
    (hbuy : 0 < buySig)
    (hbuyskip : s.current_balance <
      buyPrice * (1 + cfg.spread + cfg.slippage) * |buySig| * (1 + cfg.commission)) :
    (run_backtest cfg strategy init data).balance_history.length = data.length ∧
    (run_backtest cfg strategy init data).trades.length
      = data.countP (fun b => strategy b ≠ 0) ∧
    (execute_trade cfg s sellSig sellPrice t1).current_balance = s.current_balance ∧
    (execute_trade cfg s sellSig sellPrice t1).current_position = s.current_position ∧
    (execute_trade cfg s sellSig sellPrice t1).trades.length = s.trades.length + 1 ∧
    (execute_trade cfg s buySig buyPrice t2).current_balance = s.current_balance ∧
    (execute_trade cfg s buySig buyPrice t2).current_position = s.current_position ∧
    (execute_trade cfg s buySig buyPrice t2).trades.length = s.trades.length + 1 ∧
    ∀ (s2 : BTState) (i : ℕ) (bar : Bar),
      (run_bar cfg strategy s2 i bar).balance_history
        = s2.balance_history ++ [⟨i, (run_bar cfg strategy s2 i bar).current_balance,
            (run_bar cfg strategy s2 i bar).current_position⟩] := by
  obtain ⟨hh, ht⟩ := run_from_lens cfg strategy data (initBTState init) 0
  have hsell1 : ¬ (0 < sellSig) := not_lt.mpr (le_of_lt hsell)
  have hsell2 : ¬ (|sellSig| ≤ s.current_position) := not_le.mpr hsellskip
  have hbuyskip1 : ¬ (buyPrice * (1 + cfg.spread + cfg.slippage) * |buySig|
      + buyPrice * (1 + cfg.spread + cfg.slippage) * |buySig| * cfg.commission
      ≤ s.current_balance) := by
    rw [not_le]
    nlinarith [hbuyskip]
  refine ⟨by simpa [run_backtest, initBTState] using hh,
    by simpa [run_backtest, initBTState] using ht, ?_, ?_, ?_, ?_, ?_, ?_,
    fun s2 i bar => run_bar_history cfg strategy s2 i bar⟩ <;>
    simp [execute_trade, hsell1, hsell, hsell2, hbuy, hbuyskip1]

/-- Witness for C2: the concrete engine with default costs, a one-bar run on
a constant sell strategy starting from a zero balance. -/
theorem C2_ledger_shape_witness :
    (run_backtest ⟨1/2000, 1/5000, 1/10000⟩ (fun _ => -1) 0
        [⟨1⟩]).balance_history.length = 1 ∧
    (run_backtest ⟨1/2000, 1/5000, 1/10000⟩ (fun _ => -1) 0
        [⟨1⟩]).trades.length = 1 ∧
    (execute_trade ⟨1/2000, 1/5000, 1/10000⟩ (initBTState 0) (-1) 1
        5).current_balance = (initBTState 0).current_balance ∧
    (execute_trade ⟨1/2000, 1/5000, 1/10000⟩ (initBTState 0) (-1) 1
        5).current_position = (initBTState 0).current_position ∧
    (execute_trade ⟨1/2000, 1/5000, 1/10000⟩ (initBTState 0) (-1) 1
        5).trades.length = (initBTState 0).trades.length + 1 ∧
    (execute_trade ⟨1/2000, 1/5000, 1/10000⟩ (initBTState 0) 2 1
        6).current_balance = (initBTState 0).current_balance ∧
    (execute_trade ⟨1/2000, 1/5000, 1/10000⟩ (initBTState 0) 2 1
        6).current_position = (initBTState 0).current_position ∧
    (execute_trade ⟨1/2000, 1/5000, 1/10000⟩ (initBTState 0) 2 1
        6).trades.length = (initBTState 0).trades.length + 1 ∧
    ∀ (s2 : BTState) (i : ℕ) (bar : Bar),
      (run_bar ⟨1/2000, 1/5000, 1/10000⟩ (fun _ => -1) s2 i bar).balance_history
        = s2.balance_history ++
            [⟨i, (run_bar ⟨1/2000, 1/5000, 1/10000⟩ (fun _ => -1) s2 i
                bar).current_balance,
              (run_bar ⟨1/2000, 1/5000, 1/10000⟩ (fun _ => -1) s2 i
                bar).current_position⟩] := by
  have h := C2_ledger_shape ⟨1/2000, 1/5000, 1/10000⟩ (fun _ => -1) 0 [⟨1⟩]
    (initBTState 0) (-1) 2 1 1 5 6
    (by norm_num) (by norm_num [initBTState])
    (by norm_num) (by norm_num [initBTState])
  obtain ⟨h1, h2, h3, h4, h5, h6, h7, h8, h9⟩ := h
  refine ⟨h1, ?_, h3, h4, h5, h6, h7, h8, h9⟩
  rw [h2]
  norm_num

/-- `_execute_trade` keeps a non-negative balance non-negative: an executed
buy is covered by the guard, an executed sell adds
`trade_value * (1 - commission) ≥ 0`, and a skipped trade changes nothing. -/
theorem execute_trade_balance_nonneg (cfg : BTConfig) (s : BTState)
    (signal price : ℚ) (t : ℕ)
    (hc0 : 0 ≤ cfg.commission) (hc1 : cfg.commission ≤ 1)
    (hsp : 0 ≤ cfg.spread) (hsl : 0 ≤ cfg.slippage) (hp : 0 ≤ price)
    (hbal : 0 ≤ s.current_balance) :
    0 ≤ (execute_trade cfg s signal price t).current_balance := by
  have htv : 0 ≤ price * (1 + cfg.spread + cfg.slippage) * |signal| :=
    mul_nonneg (mul_nonneg hp (by linarith)) (abs_nonneg signal)
  rw [execute_trade]
  split_ifs with h1 h2 h3 h4
  · show 0 ≤ s.current_balance -
      (price * (1 + cfg.spread + cfg.slippage) * |signal|
        + price * (1 + cfg.spread + cfg.slippage) * |signal| * cfg.commission)
    have := h2
    linarith [this]
  · exact hbal
  · show 0 ≤ s.current_balance +
      (price * (1 + cfg.spread + cfg.slippage) * |signal|
        - price * (1 + cfg.spread + cfg.slippage) * |signal| * cfg.commission)
    nlinarith [mul_nonneg htv (show (0:ℚ) ≤ 1 - cfg.commission by linarith)]
  · exact hbal
  · exact hbal

/-- `_execute_trade` keeps a non-negative position non-negative: a buy adds a
positive signal and a sell is guarded by `|signal| ≤ current_position`. -/
theorem execute_trade_position_nonneg (cfg : BTConfig) (s : BTState)
    (signal price : ℚ) (t : ℕ) (hpos : 0 ≤ s.current_position) :
    0 ≤ (execute_trade cfg s signal price t).current_position := by
  rw [execute_trade]
  split_ifs with h1 h2 h3 h4
  · show 0 ≤ s.current_position + signal
    linarith
  · exact hpos
  · show 0 ≤ s.current_position + signal
    rw [abs_of_neg h3] at h4
    linarith
  · exact hpos
  · exact hpos

/-- One bar of the loop keeps the balance non-negative. -/
theorem run_bar_balance_nonneg (cfg : BTConfig) (strat : Bar → ℚ) (s : BTState)
    (i : ℕ) (bar : Bar)
    (hc0 : 0 ≤ cfg.commission) (hc1 : cfg.commission ≤ 1)
    (hsp : 0 ≤ cfg.spread) (hsl : 0 ≤ cfg.slippage) (hp : 0 ≤ bar.close)
    (hbal : 0 ≤ s.current_balance) :
    0 ≤ (run_bar cfg strat s i bar).current_balance := by
  rw [run_bar]
  by_cases hsig : strat bar = 0
  · simpa [hsig] using hbal
  · simpa [hsig] using
      execute_trade_balance_nonneg cfg s (strat bar) bar.close i hc0 hc1 hsp hsl hp hbal

/-- One bar of the loop keeps the position non-negative. -/
theorem run_bar_position_nonneg (cfg : BTConfig) (strat : Bar → ℚ) (s : BTState)
    (i : ℕ) (bar : Bar) (hpos : 0 ≤ s.current_position) :
    0 ≤ (run_bar cfg strat s i bar).current_position := by
  rw [run_bar]
  by_cases hsig : strat bar = 0
  · simpa [hsig] using hpos
  · simpa [hsig] using
      execute_trade_position_nonneg cfg s (strat bar) bar.close i hpos

/-- Loop invariant: with fractional costs and non-negative prices, the running
balance and every recorded snapshot balance stay non-negative. -/
theorem run_from_balance_inv (cfg : BTConfig) (strat : Bar → ℚ)
    (hc0 : 0 ≤ cfg.commission) (hc1 : cfg.commission ≤ 1)
    (hsp : 0 ≤ cfg.spread) (hsl : 0 ≤ cfg.slippage) :
    ∀ (data : List Bar) (s : BTState) (i : ℕ),
    (∀ b ∈ data, 0 ≤ b.close) → 0 ≤ s.current_balance →
    (∀ snap ∈ s.balance_history, 0 ≤ snap.balance) →
    0 ≤ (run_from cfg strat s i data).current_balance ∧
    ∀ snap ∈ (run_from cfg strat s i data).balance_history, 0 ≤ snap.balance
  | [], s, i => fun _ hbal hhist => by rw [run_from]; exact ⟨hbal, hhist⟩
  | bar :: rest, s, i => fun hdata hbal hhist => by
    have hbar : 0 ≤ bar.close := hdata bar (List.mem_cons_self _ _)
    have hbal1 := run_bar_balance_nonneg cfg strat s i bar hc0 hc1 hsp hsl hbar hbal
    have hhist1 : ∀ snap ∈ (run_bar cfg strat s i bar).balance_history,
        0 ≤ snap.balance := by
      rw [run_bar_history]
      intro snap hsnap
      rcases List.mem_append.mp hsnap with h | h
      · exact hhist snap h
      · rw [List.mem_singleton] at h
        rw [h]
        exact hbal1
    rw [run_from]
    exact run_from_balance_inv cfg strat hc0 hc1 hsp hsl rest
      (run_bar cfg strat s i bar) (i + 1)
      (fun b hb => hdata b (List.mem_cons_of_mem _ hb)) hbal1 hhist1

/-- Loop invariant: the running position and every recorded snapshot position
stay non-negative, with no assumption on prices or costs. -/
theorem run_from_position_inv (cfg : BTConfig) (strat : Bar → ℚ) :
    ∀ (data : List Bar) (s : BTState) (i : ℕ),
    0 ≤ s.current_position →
    (∀ snap ∈ s.balance_history, 0 ≤ snap.position) →
    0 ≤ (run_from cfg strat s i data).current_position ∧
    ∀ snap ∈ (run_from cfg strat s i data).balance_history, 0 ≤ snap.position
  | [], s, i => fun hpos hhist => by rw [run_from]; exact ⟨hpos, hhist⟩
  | bar :: rest, s, i => fun hpos hhist => by
    have hpos1 := run_bar_position_nonneg cfg strat s i bar hpos
    have hhist1 : ∀ snap ∈ (run_bar cfg strat s i bar).balance_history,
        0 ≤ snap.position := by
      rw [run_bar_history]
      intro snap hsnap
      rcases List.mem_append.mp hsnap with h | h
      · exact hhist snap h
      · rw [List.mem_singleton] at h
        rw [h]
        exact hpos1
    rw [run_from]
    exact run_from_position_inv cfg strat rest (run_bar cfg strat s i bar) (i + 1)
      hpos1 hhist1

/-- Claim C4: with a non-negative initial balance, non-negative prices and
fractional costs (commission at most 1), the balance is never negative after
any bar: the final balance and every snapshot balance are non-negative. -/
theorem C4_balance_never_negative (cfg : BTConfig) (strategy : Bar → ℚ)
    (init : ℚ) (data : List Bar)
    (hinit : 0 ≤ init)
    (hc0 : 0 ≤ cfg.commission) (hc1 : cfg.commission ≤ 1)
    (hsp : 0 ≤ cfg.spread) (hsl : 0 ≤ cfg.slippage)
    (hdata : ∀ b ∈ data, 0 ≤ b.close) :
    0 ≤ (run_backtest cfg strategy init data).current_balance ∧
    ∀ snap ∈ (run_backtest cfg strategy init data).balance_history,
      0 ≤ snap.balance := by
  rw [run_backtest]
  exact run_from_balance_inv cfg strategy hc0 hc1 hsp hsl data (initBTState init) 0
    hdata hinit (by intro snap hsnap; simp [initBTState] at hsnap)

/-- Witness for C4: the default-cost engine, balance 100, one bar at price 1
with a constant buy strategy. -/
theorem C4_balance_never_negative_witness :
    0 ≤ (run_backtest ⟨1/2000, 1/5000, 1/10000⟩ (fun _ => 1) 100
        [⟨1⟩]).current_balance ∧
    ∀ snap ∈ (run_backtest ⟨1/2000, 1/5000, 1/10000⟩ (fun _ => 1) 100
        [⟨1⟩]).balance_history, 0 ≤ snap.balance := by
  refine C4_balance_never_negative ⟨1/2000, 1/5000, 1/10000⟩ (fun _ => 1) 100 [⟨1⟩]
    (by norm_num) (by norm_num) (by norm_num) (by norm_num) (by norm_num) ?_
  intro b hb
  rw [List.mem_singleton] at hb
  rw [hb]
  norm_num

/-- Claim C10: the position starts at 0 and is never negative after any bar
of any backtest: a sell executes only when `|signal| ≤ current_position`, so
short exposure can never be created. -/
theorem C10_position_never_negative (cfg : BTConfig) (strategy : Bar → ℚ)
    (init : ℚ) (data : List Bar) :
    (initBTState init).current_position = 0 ∧
    0 ≤ (run_backtest cfg strategy init data).current_position ∧
    ∀ snap ∈ (run_backtest cfg strategy init data).balance_history,
      0 ≤ snap.position := by
  refine ⟨rfl, ?_⟩
  rw [run_backtest]
  have h := run_from_position_inv cfg strategy data (initBTState init) 0
    (le_refl 0) (by intro snap hsnap; simp [initBTState] at hsnap)
  exact ⟨h.1, h.2⟩

/-- Rounding to two decimals is monotone. -/
theorem round2_mono {x y : ℚ} (h : x ≤ y) : round2 x ≤ round2 y := by
  rw [round2, round2, round_eq, round_eq]
  have hfl : (⌊x * 100 + 1/2⌋ : ℤ) ≤ ⌊y * 100 + 1/2⌋ :=
    Int.floor_le_floor (by linarith)
  have hq : ((⌊x * 100 + 1/2⌋ : ℤ) : ℚ) ≤ ((⌊y * 100 + 1/2⌋ : ℤ) : ℚ) := by
    exact_mod_cast hfl
  linarith

/-- Claim C8: for positive inputs, `calculate_position_size` is monotonically
increasing in `risk_per_trade` and `account_balance`, and monotonically
decreasing in `stop_loss_pips` and `pip_value`. -/
theorem C8_position_size_monotone
    (a r p v a2 r2 p2 v2 lev dd lot : ℚ)
    (ha : 0 < a) (hr : 0 < r) (hp : 0 < p) (hv : 0 < v)
    (ha2 : 0 < a2) (hr2 : 0 < r2) (hp2 : 0 < p2) (hv2 : 0 < v2) :
    (r ≤ r2 →
      RiskManagement.calculate_position_size ⟨a, lev, dd, r, lot⟩ p v ≤
      RiskManagement.calculate_position_size ⟨a, lev, dd, r2, lot⟩ p v) ∧
    (a ≤ a2 →
      RiskManagement.calculate_position_size ⟨a, lev, dd, r, lot⟩ p v ≤
      RiskManagement.calculate_position_size ⟨a2, lev, dd, r, lot⟩ p v) ∧
    (p ≤ p2 →
      RiskManagement.calculate_position_size ⟨a, lev, dd, r, lot⟩ p2 v ≤
      RiskManagement.calculate_position_size ⟨a, lev, dd, r, lot⟩ p v) ∧
    (v ≤ v2 →
      RiskManagement.calculate_position_size ⟨a, lev, dd, r, lot⟩ p v2 ≤
      RiskManagement.calculate_position_size ⟨a, lev, dd, r, lot⟩ p v) := by
  refine ⟨fun h => ?_, fun h => ?_, fun h => ?_, fun h => ?_⟩
  · show round2 (a * r / (p * v)) ≤ round2 (a * r2 / (p * v))
    apply round2_mono
    gcongr
  · show round2 (a * r / (p * v)) ≤ round2 (a2 * r / (p * v))
    apply round2_mono
    gcongr
  · show round2 (a * r / (p2 * v)) ≤ round2 (a * r / (p * v))
    apply round2_mono
    apply div_le_div_of_nonneg_left (by positivity) (by positivity)
    exact mul_le_mul_of_nonneg_right h hv.le
  · show round2 (a * r / (p * v2)) ≤ round2 (a * r / (p * v))
    apply round2_mono
    apply div_le_div_of_nonneg_left (by positivity) (by positivity)
    exact mul_le_mul_of_nonneg_left h hp.le

/-- Witness for C8: concrete positive inputs a=10000, r=0.01, p=20, v=10,
doubled in each argument. -/
theorem C8_position_size_monotone_witness :
    ((1:ℚ)/100 ≤ 2/100 →
      RiskManagement.calculate_position_size ⟨10000, 1, 1, 1/100, 1⟩ 20 10 ≤
      RiskManagement.calculate_position_size ⟨10000, 1, 1, 2/100, 1⟩ 20 10) ∧
    ((10000:ℚ) ≤ 20000 →
      RiskManagement.calculate_position_size ⟨10000, 1, 1, 1/100, 1⟩ 20 10 ≤
      RiskManagement.calculate_position_size ⟨20000, 1, 1, 1/100, 1⟩ 20 10) ∧
    ((20:ℚ) ≤ 40 →
      RiskManagement.calculate_position_size ⟨10000, 1, 1, 1/100, 1⟩ 40 10 ≤
      RiskManagement.calculate_position_size ⟨10000, 1, 1, 1/100, 1⟩ 20 10) ∧
    ((10:ℚ) ≤ 20 →
      RiskManagement.calculate_position_size ⟨10000, 1, 1, 1/100, 1⟩ 20 20 ≤
      RiskManagement.calculate_position_size ⟨10000, 1, 1, 1/100, 1⟩ 20 10) :=
  C8_position_size_monotone 10000 (1/100) 20 10 20000 (2/100) 40 20 1 1 1
    (by norm_num) (by norm_num) (by norm_num) (by norm_num)
    (by norm_num) (by norm_num) (by norm_num) (by norm_num)

end Synthron
